import Mathlib

/-!
Verification of the roster bot's core data transformations.

This file gives a shallow embedding of the bot's pure logic (src/bot.py):
the event-id extractor, the sign-up classifier, the class-map builder, the
grouping routines of the `signups` and `compare` commands, and the embed
formatter.  Python dictionaries are modelled as association lists with
unique keys and insertion-order iteration (`dictInsert` replaces the value
of an existing key in place, exactly as Python dict assignment does);
Python sets (`ids1 & ids2`, `ids1 ^ ids2`) have unspecified iteration
order, so a canonical deterministic order is chosen here and all
set-dependent claims are stated up to membership.  The network fetch is a
parameter (`fetch : String → Option EventData`), `None` modelling a
non-200 response.  A Python `KeyError` escaping a command handler is
modelled as `Except.error`.
-/

/-- Model of one element of the remote API's `signUps` array.  Each field
is `Option String`: `none` models an absent key (`entry.get(k)` returning
`None`), `some s` a present string value. -/
structure SignUp where
  userId : Option String
  name : Option String
  className : Option String
deriving DecidableEq

/-- Model of the parsed event JSON; only the `signUps` array is consumed
by the program (`data.get("signUps", [])`, an absent key modelled as the
empty list). -/
structure EventData where
  signUps : List SignUp
deriving DecidableEq

/-- Python dictionary with string keys and values: association list in
insertion order with unique keys. -/
abbrev Dict := List (String × String)

/-- Python dictionary mapping a category to the list of names collected
under it (the `grouped` dicts of bot.py). -/
abbrev Grouped := List (String × List String)

/-- Python `d[k] = v`: replace the value of an existing key in place,
otherwise append the new key at the end (insertion order). -/
def dictInsert : Dict → String → String → Dict
  | [], k, v => [(k, v)]
  | p :: d, k, v => if p.1 == k then (k, v) :: d else p :: dictInsert d k v

/-- Python `d.get(k)`: `some` value of the key when present else `none`. -/
def dictGet : Dict → String → Option String
  | [], _ => none
  | p :: d, k => if p.1 == k then some p.2 else dictGet d k

/-- Python `list(d.keys())` in insertion order. -/
def dictKeys (d : Dict) : List String := d.map (fun p => p.1)

/-- Python `{**d1, **d2}`: start from `d1` and assign every entry of `d2`
in order, so `d2` overrides `d1` on key collision. -/
def dictMerge : Dict → Dict → Dict
  | d1, [] => d1
  | d1, p :: d2 => dictMerge (dictInsert d1 p.1 p.2) d2

/-- Python `g.setdefault(k, []).append(v)` on a dict of lists. -/
def groupInsert : Grouped → String → String → Grouped
  | [], k, v => [(k, [v])]
  | p :: g, k, v => if p.1 == k then (p.1, p.2 ++ [v]) :: g else p :: groupInsert g k v

/-- Lookup in a `Grouped` dict, the empty list when the key is absent. -/
def groupGet : Grouped → String → List String
  | [], _ => []
  | p :: g, k => if p.1 == k then p.2 else groupGet g k

/-- Python truthiness of `entry.get(k)` for a string field: `None` and the
empty string are falsy. -/
def truthy : Option String → Bool
  | none => false
  | some s => s != ""

/-- The excluded `className` values of bot.py line 55: the comparison is
against the *optional* field value, so an absent `className` (modelled
`none`) is NOT excluded. -/
def excludedClasses : List (Option String) :=
  [some "Tentative", some "Bench", some "Absence"]

/-- The comprehension filter shared by `parse_active_signups` and
`get_class_map` (bot.py lines 55-56, 95-96, 133-134):
`entry.get("className") not in ("Tentative","Bench","Absence")
 and entry.get("userId") and entry.get("name")`. -/
def activeFilter (e : SignUp) : Bool :=
  !(excludedClasses.contains e.className) && truthy e.userId && truthy e.name

/-- Left-to-right evaluation of the dict comprehension of
`parse_active_signups`: for each entry passing the filter, assign
`d[entry["userId"]] = entry["name"]`.  When the filter passes, `userId`
and `name` are `some` non-empty strings, so `getD ""` is exactly the
present value. -/
def parseAux : List SignUp → Dict → Dict
  | [], d => d
  | e :: t, d =>
      parseAux t (if activeFilter e then dictInsert d (e.userId.getD "") (e.name.getD "") else d)

/-- bot.py `parse_active_signups(data)`: `{entry["userId"]: entry["name"]
for entry in data.get("signUps", []) if <activeFilter>}`. -/
def parse_active_signups (data : EventData) : Dict :=
  parseAux data.signUps []

/-- Left-to-right evaluation of the dict comprehension of
`get_class_map`, which indexes `entry["className"]` directly: the first
entry that passes the filter but has no `className` key raises `KeyError`
(modelled as `none`). -/
def cmAux : List SignUp → Dict → Option Dict
  | [], d => some d
  | e :: t, d =>
      if activeFilter e then
        match e.className with
        | none => none
        | some c => cmAux t (dictInsert d (e.userId.getD "") c)
      else cmAux t d

/-- bot.py `get_class_map(data)` (defined identically inside both the
`signups` and `compare` handlers): `{entry["userId"]: entry["className"]
for entry in data.get("signUps", []) if <activeFilter>}`; `none` models
the `KeyError` raised when an included entry lacks `className`. -/
def get_class_map (data : EventData) : Option Dict :=
  cmAux data.signUps []

/-- Total companion of `cmAux`, used to name the class map that `cmAux`
returns whenever it does not raise. -/
def cmList : List SignUp → Dict → Dict
  | [], d => d
  | e :: t, d =>
      cmList t (if activeFilter e then dictInsert d (e.userId.getD "") (e.className.getD "") else d)

/-- bot.py line 102: `class_map.get(uid, "Unknown")`. -/
def singleCat (cm : Dict) (uid : String) : String :=
  (dictGet cm uid).getD "Unknown"

/-- The grouping loop of the `signups` handler (bot.py lines 100-103):
iterate `filtered.items()` in insertion order and append each name under
`class_map.get(uid, "Unknown")`. -/
def groupAux (cm : Dict) : Dict → Grouped → Grouped
  | [], g => g
  | p :: t, g => groupAux cm t (groupInsert g (singleCat cm p.1) p.2)

/-- The Grouped Roster built by the `signups` handler from the filtered
roster and the class map. -/
def signupsGrouped (filtered cm : Dict) : Grouped :=
  groupAux cm filtered []

/-- Loop body of `group_by_class` (bot.py lines 148-152): look up the
name and the class of `uid`, and only when both are truthy append the
name under the class; otherwise the id is silently skipped. -/
def gbcStep (s cm : Dict) (g : Grouped) (uid : String) : Grouped :=
  match dictGet s uid, dictGet cm uid with
  | some nm, some cn => if nm != "" && cn != "" then groupInsert g cn nm else g
  | _, _ => g

/-- Iteration of `group_by_class` over the id sequence. -/
def gbcAux (s cm : Dict) : List String → Grouped → Grouped
  | [], g => g
  | uid :: t, g => gbcAux s cm t (gbcStep s cm g uid)

/-- bot.py `group_by_class(ids, signups, class_map)` (lines 146-153). -/
def group_by_class (ids : List String) (s cm : Dict) : Grouped :=
  gbcAux s cm ids []

/-- Python `ids1 & ids2` over the key sets; a canonical iteration order
(the order of `ids1`) is chosen since Python set order is unspecified. -/
def interIds (ids1 ids2 : List String) : List String :=
  ids1.filter (fun x => ids2.contains x)

/-- Python `ids1 ^ ids2` (symmetric difference) over the key sets, in a
canonical order: the ids only in `ids1` then the ids only in `ids2`. -/
def symmDiffIds (ids1 ids2 : List String) : List String :=
  ids1.filter (fun x => !ids2.contains x) ++ ids2.filter (fun x => !ids1.contains x)

/-- The two grouped rosters computed by the `compare` handler (bot.py
lines 140-156): the BOTH set grouped with `signups1`/`class_map1`, the
ONLY-ONE set grouped with the merged dicts `{**signups1, **signups2}` and
`{**class_map1, **class_map2}`. -/
def compareGrouped (s1 cm1 s2 cm2 : Dict) : Grouped × Grouped :=
  (group_by_class (interIds (dictKeys s1) (dictKeys s2)) s1 cm1,
   group_by_class (symmDiffIds (dictKeys s1) (dictKeys s2)) (dictMerge s1 s2) (dictMerge cm1 cm2))

/-- bot.py `CLASS_EMOJIS` (lines 16-22). -/
def CLASS_EMOJIS : Dict :=
  [("Healer", "💚"), ("Tank", "🛡️"), ("Melee", "⚔️"), ("Ranged", "🏹"), ("Late", "⏰")]

/-- Python `s[:n]`: code-point slice (Lean `String.length` and Python
`len` both count code points). -/
def strTake (s : String) (n : Nat) : String :=
  String.mk (s.data.take n)

/-- The body text of one embed section (bot.py lines 64-69):
`names = "\n".join(grouped[class_name])`, then `"_None_"` when the joined
string is empty, else truncation to 1000 characters plus an ellipsis when
it exceeds 1000 characters. -/
def sectionBody (nameList : List String) : String :=
  let names := String.intercalate "\n" nameList
  if names = "" then "_None_"
  else if names.length > 1000 then strTake names 1000 ++ "…"
  else names

/-- One field of a chat embed (`embed.add_field`). -/
structure EmbedField where
  name : String
  value : String
deriving DecidableEq

/-- A chat embed: title plus its fields in order (the color constant is
presentation-only and not modelled). -/
structure Embed where
  title : String
  fields : List EmbedField
deriving DecidableEq

/-- bot.py line 72: `"─" * 20`. -/
def sepLine : String :=
  String.mk (List.replicate 20 '─')

/-- Insertion of one key into an ascending list, by the code-point
lexicographic order (Python string comparison). -/
def insertSorted (x : String) : List String → List String
  | [] => [x]
  | y :: ys => if x ≤ y then x :: y :: ys else y :: insertSorted x ys

/-- Python `sorted(keys)`: ascending code-point lexicographic order (the
keys of a dict are distinct, so stability is irrelevant). -/
def sortStr (l : List String) : List String :=
  l.foldr insertSorted []

/-- bot.py `build_signups_embed(title, grouped)` (lines 59-75): one field
per category in sorted key order, labelled with the category glyph
(`CLASS_EMOJIS.get(class_name, "❔")`), the body from `sectionBody`
followed by a newline and the separator line. -/
def build_signups_embed (title : String) (grouped : Grouped) : Embed :=
  { title := title
    fields := (sortStr (grouped.map (fun p => p.1))).map (fun cn =>
      { name := (dictGet CLASS_EMOJIS cn).getD "❔" ++ " " ++ cn
        value := sectionBody (groupGet grouped cn) ++ "\n" ++ sepLine }) }

/-- Reverse of the string, used to read the trailing digit run. -/
def trailingDigits (s : String) : String :=
  String.mk ((s.data.reverse.takeWhile Char.isDigit).reverse)

/-- The text the regex anchor `$` can end at: Python `$` (without
MULTILINE) matches at the end of the string, or just before one final
newline; so a single trailing `'\n'` is discounted before reading the
trailing digit run. -/
def regexTarget (s : String) : String :=
  if s.data.getLast? = some '\n' then String.mk s.data.dropLast else s

/-- bot.py `extract_event_id(arg)` (lines 24-32):
`re.search(r"(?:event/)?(\d{10,})$", arg)` returns group 1 — the maximal
run of trailing digits (ending at the end of the string or just before a
final newline, the two places `$` matches) — whenever that run has length
at least 10; the optional literal `event/` before the digits never
changes group 1.  When there is no match the argument is returned
unchanged.  Digits are modelled as the ASCII decimal digits. -/
def extract_event_id (arg : String) : String :=
  let run := trailingDigits (regexTarget arg)
  if run.length ≥ 10 then run else arg

/-- bot.py line 83: the fetch-failure message of the `signups` handler,
which interpolates the offending identifier. -/
def fetchErrMsg (event_id : String) : String :=
  "❌ Could not fetch event details for ID `" ++ event_id ++ "`."

/-- A message sent to the chat channel: plain text or an embed. -/
inductive Message where
  | text (s : String)
  | embed (e : Embed)
deriving DecidableEq

/-- The `signups` command handler (bot.py lines 77-106) as a function of
the fetch oracle: extract the id, fetch (`none` = non-200), report a
fetch failure naming the id, report an empty roster, or build the class
map (propagating its `KeyError` as `Except.error`) and send the embed. -/
def signupsRun (fetch : String → Option EventData) (event_arg : String) :
    Except String (List Message) :=
  let event_id := extract_event_id event_arg
  match fetch event_id with
  | none => Except.ok [Message.text (fetchErrMsg event_id)]
  | some data =>
      let filtered := parse_active_signups data
      if filtered.isEmpty then
        Except.ok [Message.text "No active signups found for this event."]
      else
        match get_class_map data with
        | none => Except.error "KeyError: className"
        | some class_map =>
            Except.ok [Message.embed (build_signups_embed "Active Signups"
              (signupsGrouped filtered class_map))]

/-- The `compare` command handler (bot.py lines 108-163) as a function of
the fetch oracle: both fetches happen, a single generic message (not
naming either identifier) is sent when either failed, otherwise the two
class maps are built (each able to raise `KeyError`) and the two embeds
are sent.  The one-second pause between the two sends is timing only and
not modelled. -/
def compareRun (fetch : String → Option EventData) (arg1 arg2 : String) :
    Except String (List Message) :=
  let id1 := extract_event_id arg1
  let id2 := extract_event_id arg2
  match fetch id1, fetch id2 with
  | some data1, some data2 =>
      let s1 := parse_active_signups data1
      let s2 := parse_active_signups data2
      match get_class_map data1 with
      | none => Except.error "KeyError: className"
      | some cm1 =>
          match get_class_map data2 with
          | none => Except.error "KeyError: className"
          | some cm2 =>
              let gp := compareGrouped s1 cm1 s2 cm2
              Except.ok [Message.embed (build_signups_embed "✅ Signed up for BOTH events" gp.1),
                Message.embed (build_signups_embed "☑️ Signed up for ONLY ONE event" gp.2)]
  | _, _ => Except.ok [Message.text "❌ Could not fetch one or both event details."]

/-- Substring test: some drop of the text starts with the pattern.  Used
to state that a message "names" an identifier. -/
def strContains (s t : String) : Bool :=
  (List.range (s.data.length + 1)).any
    (fun i => ((s.data.drop i).take t.data.length) == t.data)

/-! ### Lemmas about the dictionary primitives -/

lemma dictKeys_cons (p : String × String) (d : Dict) :
    dictKeys (p :: d) = p.1 :: dictKeys d := rfl

lemma dictGet_dictInsert (d : Dict) (k v k' : String) :
    dictGet (dictInsert d k v) k' = if k' = k then some v else dictGet d k' := by
  induction d with
  | nil =>
      by_cases h : k' = k
      · subst h
        simp [dictInsert, dictGet]
      · simp [dictInsert, dictGet, h, Ne.symm h]
  | cons p d ih =>
      by_cases hp : p.1 = k
      · by_cases h : k' = k
        · subst h
          simp [dictInsert, dictGet, hp]
        · simp [dictInsert, dictGet, hp, h, Ne.symm h]
      · by_cases h : k' = k
        · subst h
          simp [dictInsert, dictGet, hp, ih]
        · simp [dictInsert, dictGet, hp, h, ih]

lemma dictKeys_dictInsert (d : Dict) (k v : String) :
    dictKeys (dictInsert d k v) = if k ∈ dictKeys d then dictKeys d else dictKeys d ++ [k] := by
  induction d with
  | nil => simp [dictInsert, dictKeys]
  | cons p d ih =>
      by_cases hp : p.1 = k
      · simp [dictInsert, dictKeys_cons, hp]
      · simp only [dictInsert, beq_iff_eq, hp, if_false, dictKeys_cons, ih]
        by_cases hm : k ∈ dictKeys d
        · simp [hm, Ne.symm hp]
        · simp [hm, Ne.symm hp]

lemma mem_dictKeys_dictInsert (d : Dict) (k v k' : String) :
    k' ∈ dictKeys (dictInsert d k v) ↔ k' ∈ dictKeys d ∨ k' = k := by
  rw [dictKeys_dictInsert]
  by_cases hm : k ∈ dictKeys d
  · simp only [if_pos hm]
    constructor
    · exact Or.inl
    · rintro (h | rfl)
      · exact h
      · exact hm
  · simp [if_neg hm]

lemma mem_dictInsert (d : Dict) (k v : String) (p : String × String) :
    p ∈ dictInsert d k v → p ∈ d ∨ p = (k, v) := by
  induction d with
  | nil => simp [dictInsert]
  | cons q d ih =>
      by_cases hq : q.1 = k
      · simp [dictInsert, hq]
        tauto
      · simp [dictInsert, hq]
        intro h
        rcases h with h | h
        · tauto
        · rcases ih h with h' | h' <;> tauto

lemma dictGet_eq_some_mem (d : Dict) (k v : String) :
    dictGet d k = some v → (k, v) ∈ d := by
  induction d with
  | nil => simp [dictGet]
  | cons p d ih =>
      by_cases hp : p.1 = k
      · simp [dictGet, hp]
        intro h
        left
        ext <;> simp [hp, h]
      · simp [dictGet, hp]
        intro h
        exact Or.inr (ih h)

lemma dictGet_isSome_iff_mem_keys (d : Dict) (k : String) :
    (dictGet d k).isSome = true ↔ k ∈ dictKeys d := by
  induction d with
  | nil => simp [dictGet, dictKeys]
  | cons p d ih =>
      by_cases hp : p.1 = k
      · simp [dictGet, dictKeys, hp]
      · simp [dictGet, dictKeys, hp, ih, Ne.symm hp]

lemma dictGet_eq_none_of_not_mem_keys (d : Dict) (k : String) (h : k ∉ dictKeys d) :
    dictGet d k = none := by
  cases hg : dictGet d k with
  | none => rfl
  | some v =>
      exact absurd ((dictGet_isSome_iff_mem_keys d k).mp (by simp [hg])) h

lemma dictGet_dictMerge (d1 d2 : Dict) (k : String) (hnd : (dictKeys d2).Nodup) :
    dictGet (dictMerge d1 d2) k =
      match dictGet d2 k with
      | some v => some v
      | none => dictGet d1 k := by
  induction d2 generalizing d1 with
  | nil => simp [dictMerge, dictGet]
  | cons p d2 ih =>
      rw [dictKeys_cons, List.nodup_cons] at hnd
      by_cases hp : p.1 = k
      · subst hp
        have h2 : dictGet d2 p.1 = none :=
          dictGet_eq_none_of_not_mem_keys d2 p.1 (by simpa [dictKeys] using hnd.1)
        simp only [dictMerge, dictGet, beq_self_eq_true, if_true]
        rw [ih _ hnd.2, h2]
        simp [dictGet_dictInsert]
      · simp only [dictMerge, dictGet, beq_iff_eq, hp, if_false]
        rw [ih _ hnd.2]
        cases hg : dictGet d2 k with
        | some v => simp
        | none => simp [dictGet_dictInsert, Ne.symm hp]

lemma groupGet_groupInsert (g : Grouped) (k v k' : String) :
    groupGet (groupInsert g k v) k' =
      if k' = k then groupGet g k ++ [v] else groupGet g k' := by
  induction g with
  | nil =>
      by_cases h : k' = k
      · subst h
        simp [groupInsert, groupGet]
      · simp [groupInsert, groupGet, h, Ne.symm h]
  | cons p g ih =>
      by_cases hp : p.1 = k
      · by_cases h : k' = k
        · subst h
          simp [groupInsert, groupGet, hp]
        · simp [groupInsert, groupGet, hp, h, Ne.symm h]
      · by_cases h : k' = k
        · subst h
          simp [groupInsert, groupGet, hp, ih]
        · simp [groupInsert, groupGet, hp, h, ih]

/-! ### Lemmas about the classifier and the class map -/

lemma userId_of_active {e : SignUp} (h : activeFilter e = true) :
    ∃ u, e.userId = some u ∧ u ≠ "" ∧ e.userId.getD "" = u := by
  have ht : truthy e.userId = true := by
    simp [activeFilter] at h
    exact h.1.2
  cases hu : e.userId with
  | none => rw [hu] at ht; simp [truthy] at ht
  | some u =>
      rw [hu] at ht
      simp [truthy] at ht
      exact ⟨u, rfl, ht, rfl⟩

lemma name_of_active {e : SignUp} (h : activeFilter e = true) :
    ∃ n, e.name = some n ∧ n ≠ "" ∧ e.name.getD "" = n := by
  have ht : truthy e.name = true := by
    simp [activeFilter] at h
    exact h.2
  cases hn : e.name with
  | none => rw [hn] at ht; simp [truthy] at ht
  | some n =>
      rw [hn] at ht
      simp [truthy] at ht
      exact ⟨n, rfl, ht, rfl⟩

lemma mem_keys_parseAux (l : List SignUp) (d : Dict) (uid : String) :
    uid ∈ dictKeys (parseAux l d) ↔
      uid ∈ dictKeys d ∨ ∃ e, e ∈ l ∧ activeFilter e = true ∧ e.userId = some uid := by
  induction l generalizing d with
  | nil => simp [parseAux]
  | cons e t ih =>
      simp only [parseAux]
      rw [ih]
      by_cases hf : activeFilter e = true
      · obtain ⟨u, hu, -, hgd⟩ := userId_of_active hf
        rw [if_pos hf]
        rw [hgd, mem_dictKeys_dictInsert]
        constructor
        · rintro ((h | rfl) | ⟨e', he', hf', hu'⟩)
          · exact Or.inl h
          · exact Or.inr ⟨e, List.mem_cons_self e t, hf, hu⟩
          · exact Or.inr ⟨e', List.mem_cons_of_mem e he', hf', hu'⟩
        · rintro (h | ⟨e', he', hf', hu'⟩)
          · exact Or.inl (Or.inl h)
          · rcases List.mem_cons.mp he' with rfl | he''
            · rw [hu] at hu'
              exact Or.inl (Or.inr (Option.some_injective _ hu').symm)
            · exact Or.inr ⟨e', he'', hf', hu'⟩
      · rw [if_neg hf]
        constructor
        · rintro (h | ⟨e', he', hf', hu'⟩)
          · exact Or.inl h
          · exact Or.inr ⟨e', List.mem_cons_of_mem e he', hf', hu'⟩
        · rintro (h | ⟨e', he', hf', hu'⟩)
          · exact Or.inl h
          · rcases List.mem_cons.mp he' with rfl | he''
            · exact absurd hf' hf
            · exact Or.inr ⟨e', he'', hf', hu'⟩

lemma mem_parseAux (l : List SignUp) (d : Dict) (p : String × String) :
    p ∈ parseAux l d →
      p ∈ d ∨ ∃ e, e ∈ l ∧ activeFilter e = true ∧ e.userId = some p.1 ∧ e.name = some p.2 := by
  induction l generalizing d with
  | nil => simp [parseAux]
  | cons e t ih =>
      simp only [parseAux]
      by_cases hf : activeFilter e = true
      · rw [if_pos hf]
        intro h
        rcases ih _ h with h' | ⟨e', he', hf', hu', hn'⟩
        · rcases mem_dictInsert _ _ _ _ h' with h'' | h''
          · exact Or.inl h''
          · obtain ⟨u, hu, -, hgu⟩ := userId_of_active hf
            obtain ⟨n, hn, -, hgn⟩ := name_of_active hf
            subst h''
            refine Or.inr ⟨e, List.mem_cons_self e t, hf, ?_, ?_⟩
            · rw [hgu]
              exact hu
            · rw [hgn]
              exact hn
        · exact Or.inr ⟨e', List.mem_cons_of_mem e he', hf', hu', hn'⟩
      · rw [if_neg hf]
        intro h
        rcases ih _ h with h' | ⟨e', he', hf', hu', hn'⟩
        · exact Or.inl h'
        · exact Or.inr ⟨e', List.mem_cons_of_mem e he', hf', hu', hn'⟩

lemma parseAux_append (a b : List SignUp) (d : Dict) :
    parseAux (a ++ b) d = parseAux b (parseAux a d) := by
  induction a generalizing d with
  | nil => simp [parseAux]
  | cons e t ih => simp [parseAux, ih]

lemma dictGet_parseAux_not_mem (l : List SignUp) (d : Dict) (uid : String)
    (h : ∀ e ∈ l, e.userId ≠ some uid) :
    dictGet (parseAux l d) uid = dictGet d uid := by
  induction l generalizing d with
  | nil => simp [parseAux]
  | cons e t ih =>
      simp only [parseAux]
      rw [ih _ (fun e' he' => h e' (List.mem_cons_of_mem e he'))]
      by_cases hf : activeFilter e = true
      · obtain ⟨u, hu, -, hgd⟩ := userId_of_active hf
        have : u ≠ uid := by
          intro h'
          exact h e (List.mem_cons_self e t) (by rw [hu, h'])
        rw [if_pos hf, hgd, dictGet_dictInsert, if_neg (Ne.symm this)]
      · rw [if_neg hf]

lemma cmAux_eq_some (l : List SignUp) (d : Dict)
    (h : ∀ e ∈ l, activeFilter e = true → e.className ≠ none) :
    cmAux l d = some (cmList l d) := by
  induction l generalizing d with
  | nil => simp [cmAux, cmList]
  | cons e t ih =>
      by_cases hf : activeFilter e = true
      · cases hc : e.className with
        | none => exact absurd hc (h e (List.mem_cons_self e t) hf)
        | some c =>
            simp only [cmAux, cmList, hf, if_true, hc]
            rw [ih _ (fun e' he' => h e' (List.mem_cons_of_mem e he'))]
            simp [hc]
      · simp only [cmAux, cmList, hf, if_false, Bool.false_eq_true]
        exact ih _ (fun e' he' => h e' (List.mem_cons_of_mem e he'))

lemma cmList_append (a b : List SignUp) (d : Dict) :
    cmList (a ++ b) d = cmList b (cmList a d) := by
  induction a generalizing d with
  | nil => simp [cmList]
  | cons e t ih => simp [cmList, ih]

lemma dictGet_cmList_not_mem (l : List SignUp) (d : Dict) (uid : String)
    (h : ∀ e ∈ l, e.userId ≠ some uid) :
    dictGet (cmList l d) uid = dictGet d uid := by
  induction l generalizing d with
  | nil => simp [cmList]
  | cons e t ih =>
      simp only [cmList]
      rw [ih _ (fun e' he' => h e' (List.mem_cons_of_mem e he'))]
      by_cases hf : activeFilter e = true
      · obtain ⟨u, hu, -, hgd⟩ := userId_of_active hf
        have : u ≠ uid := by
          intro h'
          exact h e (List.mem_cons_self e t) (by rw [hu, h'])
        rw [if_pos hf, hgd, dictGet_dictInsert, if_neg (Ne.symm this)]
      · rw [if_neg hf]

lemma dictKeys_parseAux_eq_cmList (l : List SignUp) (d1 d2 : Dict)
    (h : dictKeys d1 = dictKeys d2) :
    dictKeys (parseAux l d1) = dictKeys (cmList l d2) := by
  induction l generalizing d1 d2 with
  | nil => simpa [parseAux, cmList] using h
  | cons e t ih =>
      simp only [parseAux, cmList]
      by_cases hf : activeFilter e = true
      · rw [if_pos hf, if_pos hf]
        exact ih _ _ (by rw [dictKeys_dictInsert, dictKeys_dictInsert, h])
      · rw [if_neg hf, if_neg hf]
        exact ih _ _ h

/-! ### Characterizations of the two grouping routines -/

lemma groupGet_groupAux (cm : Dict) (l : Dict) (g : Grouped) (c : String) :
    groupGet (groupAux cm l g) c =
      groupGet g c ++ (l.filter (fun p => singleCat cm p.1 == c)).map (fun p => p.2) := by
  induction l generalizing g with
  | nil => simp [groupAux]
  | cons p t ih =>
      simp only [groupAux, List.filter_cons]
      rw [ih]
      by_cases hc : singleCat cm p.1 = c
      · rw [groupGet_groupInsert, if_pos hc.symm]
        simp [hc, List.append_assoc]
      · rw [groupGet_groupInsert, if_neg (fun h => hc h.symm)]
        simp [hc]

/-- The category-and-name that one userId contributes in the
`group_by_class` path: `some (class, name)` when both lookups resolve to
truthy values, `none` when the id is dropped. -/
def diffCatOf (s cm : Dict) (uid : String) : Option (String × String) :=
  match dictGet s uid, dictGet cm uid with
  | some nm, some cn => if nm != "" && cn != "" then some (cn, nm) else none
  | _, _ => none

/-- The name that one userId contributes to category `c` in the
`group_by_class` path. -/
def diffPick (s cm : Dict) (c : String) (uid : String) : Option String :=
  match diffCatOf s cm uid with
  | some q => if q.1 == c then some q.2 else none
  | none => none

lemma gbcStep_eq (s cm : Dict) (g : Grouped) (uid : String) :
    gbcStep s cm g uid =
      match diffCatOf s cm uid with
      | some q => groupInsert g q.1 q.2
      | none => g := by
  unfold gbcStep diffCatOf
  cases dictGet s uid with
  | none => rfl
  | some nm =>
      cases dictGet cm uid with
      | none => rfl
      | some cn =>
          by_cases h : (nm != "" && cn != "") = true
          · simp [h]
          · simp [h]

lemma groupGet_gbcAux (s cm : Dict) (ids : List String) (g : Grouped) (c : String) :
    groupGet (gbcAux s cm ids g) c =
      groupGet g c ++ ids.filterMap (diffPick s cm c) := by
  induction ids generalizing g with
  | nil => simp [gbcAux]
  | cons uid t ih =>
      simp only [gbcAux, List.filterMap_cons]
      rw [ih, gbcStep_eq]
      cases hq : diffCatOf s cm uid with
      | none => simp [diffPick, hq]
      | some q =>
          by_cases hc : q.1 = c
          · rw [groupGet_groupInsert, if_pos hc.symm]
            simp [diffPick, hq, hc, List.append_assoc]
          · rw [groupGet_groupInsert, if_neg (fun h => hc h.symm)]
            simp [diffPick, hq, hc]

/-! ### Lemmas about the identifier extractor -/

lemma takeWhile_append_of_all {α : Type} (p : α → Bool) (l1 l2 : List α)
    (h : ∀ a ∈ l1, p a = true) :
    (l1 ++ l2).takeWhile p = l1 ++ l2.takeWhile p := by
  induction l1 with
  | nil => simp
  | cons a t ih =>
      simp only [List.cons_append, List.takeWhile_cons, h a (List.mem_cons_self a t), if_true]
      rw [ih (fun a' ha' => h a' (List.mem_cons_of_mem a ha'))]

lemma string_mk_data (s : String) : String.mk s.data = s := by
  cases s
  rfl

lemma trailingDigits_append (p d : String)
    (hd : ∀ ch ∈ d.data, ch.isDigit = true)
    (hp : (Option.all (fun ch => !ch.isDigit) p.data.getLast?) = true) :
    trailingDigits (p ++ d) = d := by
  unfold trailingDigits
  rw [String.data_append, List.reverse_append]
  rw [takeWhile_append_of_all _ _ _ (fun a ha => hd a (List.mem_reverse.mp ha))]
  have hrev : p.data.reverse.takeWhile Char.isDigit = [] := by
    cases hh : p.data.reverse with
    | nil => simp
    | cons c t =>
        have hc : p.data.getLast? = some c := by
          rw [← List.head?_reverse, hh]
          rfl
        rw [hc] at hp
        simp [Option.all] at hp
        simp [List.takeWhile_cons, hp]
  rw [hrev, List.append_nil, List.reverse_reverse, string_mk_data]

lemma mem_of_head_eq_some {α : Type} {l : List α} {c : α} (h : l.head? = some c) : c ∈ l := by
  cases l with
  | nil => simp at h
  | cons a t =>
      simp only [List.head?] at h
      rw [← Option.some_inj.mp h]
      exact List.mem_cons_self a t

lemma last_not_newline_of_digits (p d : String)
    (hd : ∀ ch ∈ d.data, ch.isDigit = true) (hne : d.data ≠ []) :
    (p ++ d).data.getLast? ≠ some '\n' := by
  rw [String.data_append, List.getLast?_append]
  cases hh : d.data.getLast? with
  | none => exact absurd (List.getLast?_eq_none_iff.mp hh) hne
  | some c =>
      have hc : c ∈ d.data := by
        rw [← List.head?_reverse] at hh
        exact List.mem_reverse.mp (mem_of_head_eq_some hh)
      have : c.isDigit = true := hd c hc
      simp only [Option.or]
      intro h
      rw [Option.some_inj.mp h] at this
      simp [Char.isDigit] at this

lemma regexTarget_of_last_not_newline (s : String) (h : s.data.getLast? ≠ some '\n') :
    regexTarget s = s := by
  unfold regexTarget
  rw [if_neg h]

lemma regexTarget_newline (s : String) :
    regexTarget (s ++ "\n") = s := by
  unfold regexTarget
  have hd : (s ++ "\n").data = s.data ++ ['\n'] := by
    rw [String.data_append]
  rw [hd]
  rw [if_pos (by simp), List.dropLast_concat, string_mk_data]

lemma extract_event_id_of_trailing (p d : String)
    (hd : ∀ ch ∈ d.data, ch.isDigit = true)
    (hlen : d.data.length ≥ 10)
    (hp : (Option.all (fun ch => !ch.isDigit) p.data.getLast?) = true) :
    extract_event_id (p ++ d) = d ∧ extract_event_id (p ++ d ++ "\n") = d := by
  have hne : d.data ≠ [] := by
    intro h
    rw [h] at hlen
    simp at hlen
  have h1 : regexTarget (p ++ d) = p ++ d :=
    regexTarget_of_last_not_newline _ (last_not_newline_of_digits p d hd hne)
  have h2 : trailingDigits (p ++ d) = d := trailingDigits_append p d hd hp
  have hdl : d.length = d.data.length := rfl
  constructor
  · unfold extract_event_id
    rw [h1, h2, if_pos (by rw [hdl]; exact hlen)]
  · unfold extract_event_id
    rw [regexTarget_newline (p ++ d), h2, if_pos (by rw [hdl]; exact hlen)]

lemma extract_event_id_short (s : String)
    (h : (trailingDigits (regexTarget s)).length < 10) :
    extract_event_id s = s := by
  unfold extract_event_id
  rw [if_neg (by omega)]

/-! ### Lemmas about the formatter and messages -/

lemma sectionBody_nil : sectionBody [] = "_None_" := rfl

lemma sectionBody_long (nameList : List String)
    (h : (String.intercalate "\n" nameList).length > 1000) :
    sectionBody nameList = strTake (String.intercalate "\n" nameList) 1000 ++ "…" ∧
      (sectionBody nameList).length = 1001 := by
  have hne : ¬ String.intercalate "\n" nameList = "" := by
    intro h'
    rw [h'] at h
    simp [String.length] at h
  constructor
  · unfold sectionBody
    rw [if_neg hne, if_pos h]
  · unfold sectionBody
    rw [if_neg hne, if_pos h]
    have : (strTake (String.intercalate "\n" nameList) 1000 ++ "…").length =
        (strTake (String.intercalate "\n" nameList) 1000).length + 1 := by
      rw [String.length_append]
      rfl
    rw [this]
    have hlen : (strTake (String.intercalate "\n" nameList) 1000).length = 1000 := by
      show ((String.intercalate "\n" nameList).data.take 1000).length = 1000
      rw [List.length_take]
      have : (String.intercalate "\n" nameList).data.length > 1000 := h
      omega
    omega

lemma sectionBody_short (nameList : List String)
    (hne : String.intercalate "\n" nameList ≠ "")
    (h : (String.intercalate "\n" nameList).length ≤ 1000) :
    sectionBody nameList = String.intercalate "\n" nameList := by
  unfold sectionBody
  rw [if_neg hne, if_neg (by omega)]

lemma sectionBody_le (nameList : List String) :
    (sectionBody nameList).length ≤ 1001 := by
  by_cases hne : String.intercalate "\n" nameList = ""
  · unfold sectionBody
    rw [if_pos hne]
    decide
  · by_cases h : (String.intercalate "\n" nameList).length > 1000
    · exact le_of_eq (sectionBody_long nameList h).2
    · rw [sectionBody_short nameList hne (by omega)]
      omega

lemma strContains_append (a b c : String) :
    strContains (a ++ (b ++ c)) b = true := by
  unfold strContains
  rw [List.any_eq_true]
  refine ⟨a.data.length, ?_, ?_⟩
  · rw [List.mem_range]
    have : (a ++ (b ++ c)).data.length = a.data.length + (b.data.length + c.data.length) := by
      rw [String.data_append, String.data_append, List.length_append, List.length_append]
    omega
  · rw [String.data_append, String.data_append, List.drop_left, List.take_left]
    exact beq_self_eq_true _

lemma head_append_of_ne_nil {α : Type} (l1 l2 : List α) (h : l1 ≠ []) :
    (l1 ++ l2).head? = l1.head? := by
  cases l1 with
  | nil => exact absurd rfl h
  | cons a t => rfl

/-! ### Unique-userId lookup lemmas -/

lemma nodup_split_userId (l1 l2 : List SignUp) (e : SignUp) (uid : String)
    (hui : e.userId = some uid)
    (hnd : ((l1 ++ e :: l2).filterMap (fun x => x.userId)).Nodup) :
    (∀ x ∈ l1, x.userId ≠ some uid) ∧ (∀ x ∈ l2, x.userId ≠ some uid) := by
  rw [List.filterMap_append, List.nodup_append] at hnd
  obtain ⟨h1, h2, hdisj⟩ := hnd
  have hcons : (e :: l2).filterMap (fun x => x.userId) =
      uid :: l2.filterMap (fun x => x.userId) := by
    simp [List.filterMap_cons, hui]
  constructor
  · intro x hx hxe
    have hm1 : uid ∈ l1.filterMap (fun x => x.userId) :=
      List.mem_filterMap.mpr ⟨x, hx, hxe⟩
    have hm2 : uid ∈ (e :: l2).filterMap (fun x => x.userId) := by
      rw [hcons]
      exact List.mem_cons_self _ _
    exact hdisj hm1 hm2
  · intro x hx hxe
    rw [hcons, List.nodup_cons] at h2
    exact h2.1 (List.mem_filterMap.mpr ⟨x, hx, hxe⟩)

lemma dictGet_parseAux_of_unique (l1 l2 : List SignUp) (e : SignUp) (uid : String) (d : Dict)
    (hf : activeFilter e = true) (hui : e.userId = some uid)
    (h2 : ∀ x ∈ l2, x.userId ≠ some uid) :
    dictGet (parseAux (l1 ++ e :: l2) d) uid = e.name := by
  rw [parseAux_append]
  simp only [parseAux, if_pos hf]
  rw [dictGet_parseAux_not_mem _ _ _ h2]
  obtain ⟨u, hu, -, hgu⟩ := userId_of_active hf
  obtain ⟨n, hn, -, hgn⟩ := name_of_active hf
  have huu : u = uid := by
    rw [hu] at hui
    exact Option.some_inj.mp hui
  rw [hgu, huu, dictGet_dictInsert, if_pos rfl, hgn, hn]

lemma dictGet_cmList_of_unique (l1 l2 : List SignUp) (e : SignUp) (uid : String) (d : Dict)
    (hf : activeFilter e = true) (hui : e.userId = some uid)
    (h2 : ∀ x ∈ l2, x.userId ≠ some uid) :
    dictGet (cmList (l1 ++ e :: l2) d) uid = some (e.className.getD "") := by
  rw [cmList_append]
  simp only [cmList, if_pos hf]
  rw [dictGet_cmList_not_mem _ _ _ h2]
  obtain ⟨u, hu, -, hgu⟩ := userId_of_active hf
  have huu : u = uid := by
    rw [hu] at hui
    exact Option.some_inj.mp hui
  rw [hgu, huu, dictGet_dictInsert, if_pos rfl]

/-! ### Support lemmas for the claim statements -/

lemma activeFilter_iff (e : SignUp) :
    activeFilter e = true ↔
      (e.className ≠ some "Tentative" ∧ e.className ≠ some "Bench" ∧
         e.className ≠ some "Absence") ∧
      truthy e.userId = true ∧ truthy e.name = true := by
  simp [activeFilter, excludedClasses, List.contains, and_assoc]

lemma contains_iff_mem (l : List String) (a : String) :
    l.contains a = true ↔ a ∈ l := by
  simp [List.contains]

lemma mem_interIds (ids1 ids2 : List String) (uid : String) :
    uid ∈ interIds ids1 ids2 ↔ uid ∈ ids1 ∧ uid ∈ ids2 := by
  unfold interIds
  rw [List.mem_filter, contains_iff_mem]

lemma mem_symmDiffIds (ids1 ids2 : List String) (uid : String) :
    uid ∈ symmDiffIds ids1 ids2 ↔
      (uid ∈ ids1 ∧ uid ∉ ids2) ∨ (uid ∉ ids1 ∧ uid ∈ ids2) := by
  unfold symmDiffIds
  rw [List.mem_append, List.mem_filter, List.mem_filter]
  simp only [Bool.not_eq_true', ← Bool.not_eq_true]
  simp only [contains_iff_mem]
  tauto

lemma diffCatOf_eq_some_iff (s cm : Dict) (uid : String) (q : String × String) :
    diffCatOf s cm uid = some q ↔
      dictGet s uid = some q.2 ∧ dictGet cm uid = some q.1 ∧ q.2 ≠ "" ∧ q.1 ≠ "" := by
  unfold diffCatOf
  cases hs : dictGet s uid with
  | none => simp
  | some nm =>
      cases hc : dictGet cm uid with
      | none => simp
      | some cn =>
          show (if nm != "" && cn != "" then some (cn, nm) else none) = some q ↔ _
          by_cases hb : (nm != "" && cn != "") = true
          · rw [if_pos hb]
            simp only [bne_iff_ne, ne_eq, Bool.and_eq_true, decide_eq_true_eq] at hb
            constructor
            · intro h
              rw [← Option.some_inj.mp h]
              exact ⟨rfl, rfl, hb.1, hb.2⟩
            · rintro ⟨h1, h2, -, -⟩
              have e1 : nm = q.2 := Option.some_inj.mp h1
              have e2 : cn = q.1 := Option.some_inj.mp h2
              rw [e1, e2]
          · rw [if_neg hb]
            simp only [bne_iff_ne, ne_eq, Bool.and_eq_true, decide_eq_true_eq, not_and_or,
              not_not] at hb
            constructor
            · intro h
              exact absurd h (by simp)
            · rintro ⟨h1, h2, h3, h4⟩
              have e1 : nm = q.2 := Option.some_inj.mp h1
              have e2 : cn = q.1 := Option.some_inj.mp h2
              rcases hb with hb | hb
              · exact absurd (e1 ▸ hb) h3
              · exact absurd (e2 ▸ hb) h4

lemma diffPick_eq_some_iff (s cm : Dict) (c uid n : String) :
    diffPick s cm c uid = some n ↔
      dictGet s uid = some n ∧ dictGet cm uid = some c ∧ n ≠ "" ∧ c ≠ "" := by
  unfold diffPick
  cases hq : diffCatOf s cm uid with
  | none =>
      show (none : Option String) = some n ↔ _
      constructor
      · intro h
        exact absurd h (by simp)
      · rintro ⟨h1, h2, h3, h4⟩
        have : diffCatOf s cm uid = some (c, n) :=
          (diffCatOf_eq_some_iff s cm uid (c, n)).mpr ⟨h1, h2, h3, h4⟩
        rw [hq] at this
        exact absurd this (by simp)
  | some q =>
      have hd := (diffCatOf_eq_some_iff s cm uid q).mp hq
      show (if q.1 == c then some q.2 else none) = some n ↔ _
      by_cases hc : q.1 = c
      · rw [if_pos (by simp [hc])]
        constructor
        · intro h
          have hn : q.2 = n := Option.some_inj.mp h
          exact ⟨hn ▸ hd.1, hc ▸ hd.2.1, hn ▸ hd.2.2.1, hc ▸ hd.2.2.2⟩
        · rintro ⟨h1, -, -, -⟩
          rw [hd.1] at h1
          exact h1
      · rw [if_neg (by simp [hc])]
        constructor
        · intro h
          exact absurd h (by simp)
        · rintro ⟨-, h2, -, -⟩
          rw [hd.2.1] at h2
          exact absurd (Option.some_inj.mp h2) hc

lemma groupGet_group_by_class (ids : List String) (s cm : Dict) (c : String) :
    groupGet (group_by_class ids s cm) c = ids.filterMap (diffPick s cm c) := by
  unfold group_by_class
  rw [groupGet_gbcAux]
  simp [groupGet]

lemma groupGet_signupsGrouped (filtered cm : Dict) (c : String) :
    groupGet (signupsGrouped filtered cm) c =
      (filtered.filter (fun p => singleCat cm p.1 == c)).map (fun p => p.2) := by
  unfold signupsGrouped
  rw [groupGet_groupAux]
  simp [groupGet]

/-! ### Example fixtures (the spec's test vectors) -/

/-- The spec's differ example, first event: roster {a: Healer, b: Tank}. -/
def exData1 : EventData :=
  ⟨[⟨some "a", some "Alice", some "Healer"⟩, ⟨some "b", some "Bob", some "Tank"⟩]⟩

/-- The spec's differ example, second event: roster {b: Tank, c: Melee}. -/
def exData2 : EventData :=
  ⟨[⟨some "b", some "Bob", some "Tank"⟩, ⟨some "c", some "Carol", some "Melee"⟩]⟩

/-- The spec's classifier example: one active Healer and one Tentative. -/
def exClassifierData : EventData :=
  ⟨[⟨some "a", some "Alice", some "Healer"⟩, ⟨some "b", some "Bob", some "Tentative"⟩]⟩

/-- A sign-up with truthy `userId` and `name` but no `className` key. -/
def badEntry : SignUp := ⟨some "u1", some "Alice", none⟩

/-- An event whose only sign-up is `badEntry`. -/
def badData : EventData := ⟨[badEntry]⟩

/-! ### Claim theorems -/

/-- C2: the classifier includes a userId in the Event Roster iff some
sign-up entry carries that userId with a `className` outside
{Tentative, Bench, Absence} and truthy `userId` and `name`; every stored
pair comes verbatim from such an entry; and on the spec's example the
roster is exactly {a: Alice}, whose class map is {a: Healer} and whose
grouped form is {Healer: [Alice]}. -/
theorem parse_active_signups_spec :
    (∀ (data : EventData) (uid : String),
       uid ∈ dictKeys (parse_active_signups data) ↔
         ∃ e, e ∈ data.signUps ∧
           (e.className ≠ some "Tentative" ∧ e.className ≠ some "Bench" ∧
              e.className ≠ some "Absence") ∧
           truthy e.userId = true ∧ truthy e.name = true ∧ e.userId = some uid)
    ∧ (∀ (data : EventData) (uid nm : String),
         (uid, nm) ∈ parse_active_signups data →
           ∃ e, e ∈ data.signUps ∧ activeFilter e = true ∧
             e.userId = some uid ∧ e.name = some nm)
    ∧ parse_active_signups exClassifierData = [("a", "Alice")]
    ∧ get_class_map exClassifierData = some [("a", "Healer")]
    ∧ signupsGrouped (parse_active_signups exClassifierData) [("a", "Healer")] =
        [("Healer", ["Alice"])] := by
  refine ⟨?_, ?_, by decide, by decide, by decide⟩
  · intro data uid
    unfold parse_active_signups
    rw [mem_keys_parseAux]
    constructor
    · rintro (h | ⟨e, he, hf, hu⟩)
      · simp [dictKeys] at h
      · obtain ⟨hcls, htu, htn⟩ := (activeFilter_iff e).mp hf
        exact ⟨e, he, hcls, htu, htn, hu⟩
    · rintro ⟨e, he, hcls, htu, htn, hu⟩
      exact Or.inr ⟨e, he, (activeFilter_iff e).mpr ⟨hcls, htu, htn⟩, hu⟩
  · intro data uid nm h
    unfold parse_active_signups at h
    rcases mem_parseAux data.signUps [] (uid, nm) h with h' | ⟨e, he, hf, hu, hn⟩
    · simp at h'
    · exact ⟨e, he, hf, hu, hn⟩

/-- Witness for C2: the example entry a/Alice/Healer is included, and the
stored pair (a, Alice) traces back to an entry of the raw list. -/
theorem parse_active_signups_spec_witness :
    "a" ∈ dictKeys (parse_active_signups exClassifierData) ∧
    (∃ e, e ∈ exClassifierData.signUps ∧ activeFilter e = true ∧
       e.userId = some "a" ∧ e.name = some "Alice") :=
  ⟨(parse_active_signups_spec.1 exClassifierData "a").mpr
      ⟨⟨some "a", some "Alice", some "Healer"⟩, by decide, by decide, by decide, by decide, rfl⟩,
   parse_active_signups_spec.2.1 exClassifierData "a" "Alice" (by decide)⟩

/-- C3 counterexample: the claim says any input that does not end in a
run of at least 10 digits is returned unchanged, but Python's `$` anchor
also matches just before one final newline, so `"1234567890\n"` — whose
trailing digit run is empty — is mapped to `"1234567890"` rather than
passed through. -/
theorem extract_event_id_newline_counterexample :
    extract_event_id "1234567890\n" = "1234567890" ∧
    trailingDigits "1234567890\n" = "" ∧
    extract_event_id "1234567890\n" ≠ "1234567890\n" := by
  refine ⟨by decide, by decide, by decide⟩

/-- C3 (amended): when the input ends with 10 or more consecutive digits
optionally followed by one final newline (the other position `$`
matches), the extractor returns that digit run; when the trailing digit
run at a `$` position is shorter than 10 the input is returned
unchanged; the extractor is a total function; and the spec's three test
vectors hold. -/
theorem extract_event_id_spec :
    (∀ p d : String, (∀ ch ∈ d.data, ch.isDigit = true) → d.data.length ≥ 10 →
       Option.all (fun ch => !ch.isDigit) p.data.getLast? = true →
       extract_event_id (p ++ d) = d ∧ extract_event_id (p ++ d ++ "\n") = d)
    ∧ (∀ s : String, (trailingDigits (regexTarget s)).length < 10 →
         extract_event_id s = s)
    ∧ extract_event_id "1234567890" = "1234567890"
    ∧ extract_event_id "https://raid-helper.dev/event/9876543210" = "9876543210"
    ∧ extract_event_id "abc" = "abc" := by
  refine ⟨?_, extract_event_id_short, by decide, by decide, by decide⟩
  intro p d h1 h2 h3
  exact extract_event_id_of_trailing p d h1 h2 h3

/-- Witness for C3: the amended statement applied at `"event/" ++
"9876543210"`, with and without a trailing newline, and at `"abc"`. -/
theorem extract_event_id_spec_witness :
    extract_event_id ("event/" ++ "9876543210") = "9876543210" ∧
    extract_event_id ("event/" ++ "9876543210" ++ "\n") = "9876543210" ∧
    extract_event_id "abc" = "abc" :=
  ⟨(extract_event_id_spec.1 "event/" "9876543210" (by decide) (by decide) (by decide)).1,
   (extract_event_id_spec.1 "event/" "9876543210" (by decide) (by decide) (by decide)).2,
   extract_event_id_spec.2.1 "abc" (by decide)⟩

/-- C4: an empty name list renders the `"_None_"` placeholder; a joined
text longer than 1000 characters is truncated to its first 1000
characters plus one ellipsis character, for a body of exactly 1001
characters; the body never exceeds 1001 characters; a non-empty joined
text of at most 1000 characters is rendered verbatim; and every field of
the built embed carries such a body (followed by the separator line). -/
theorem section_body_spec :
    (∀ nameList : List String,
       (nameList = [] → sectionBody nameList = "_None_")
       ∧ ((String.intercalate "\n" nameList).length > 1000 →
            sectionBody nameList =
              strTake (String.intercalate "\n" nameList) 1000 ++ "…" ∧
            (sectionBody nameList).length = 1001)
       ∧ (sectionBody nameList).length ≤ 1001
       ∧ (String.intercalate "\n" nameList ≠ "" →
            (String.intercalate "\n" nameList).length ≤ 1000 →
            sectionBody nameList = String.intercalate "\n" nameList))
    ∧ (∀ (title : String) (grouped : Grouped) (f : EmbedField),
         f ∈ (build_signups_embed title grouped).fields →
         ∃ cn, f.value = sectionBody (groupGet grouped cn) ++ "\n" ++ sepLine) := by
  constructor
  · intro nameList
    refine ⟨?_, sectionBody_long nameList, sectionBody_le nameList, sectionBody_short nameList⟩
    intro h
    rw [h]
    rfl
  · intro t g f hf
    simp only [build_signups_embed, List.mem_map] at hf
    obtain ⟨cn, -, rfl⟩ := hf
    exact ⟨cn, rfl⟩

set_option maxRecDepth 8192 in
/-- Witness for C4: the empty section renders the placeholder, and a
single 1001-character name is truncated to a 1001-character body. -/
theorem section_body_spec_witness :
    sectionBody [] = "_None_" ∧
    (sectionBody [String.mk (List.replicate 1001 'a')]).length = 1001 :=
  ⟨(section_body_spec.1 []).1 rfl,
   ((section_body_spec.1 [String.mk (List.replicate 1001 'a')]).2.1 (by decide)).2⟩

/-- C1: in the compare operation, a name appears under a category in the
BOTH output iff some userId lies in both key sets and resolves to that
name and category through `R1`'s roster and class map (attribution
anchored to the first event); a name appears in the ONLY-ONE output iff
some userId lies in exactly one key set and resolves through the merged
maps; merged-map lookup prefers `R2`'s entry on collision; and the
spec's concrete example produces Both = {Tank: [Bob]} and Only-one =
{Healer: [Alice], Melee: [Carol]}. -/
theorem compare_grouping_spec :
    (∀ (s1 cm1 s2 cm2 : Dict) (c n : String),
       n ∈ groupGet (compareGrouped s1 cm1 s2 cm2).1 c ↔
         ∃ uid, uid ∈ dictKeys s1 ∧ uid ∈ dictKeys s2 ∧
           dictGet s1 uid = some n ∧ dictGet cm1 uid = some c ∧ n ≠ "" ∧ c ≠ "")
    ∧ (∀ (s1 cm1 s2 cm2 : Dict) (c n : String),
         n ∈ groupGet (compareGrouped s1 cm1 s2 cm2).2 c ↔
           ∃ uid, ((uid ∈ dictKeys s1 ∧ uid ∉ dictKeys s2) ∨
                     (uid ∉ dictKeys s1 ∧ uid ∈ dictKeys s2)) ∧
             dictGet (dictMerge s1 s2) uid = some n ∧
             dictGet (dictMerge cm1 cm2) uid = some c ∧ n ≠ "" ∧ c ≠ "")
    ∧ (∀ (d1 d2 : Dict) (k : String), (dictKeys d2).Nodup →
         dictGet (dictMerge d1 d2) k =
           match dictGet d2 k with
           | some v => some v
           | none => dictGet d1 k)
    ∧ compareGrouped (parse_active_signups exData1) [("a", "Healer"), ("b", "Tank")]
        (parse_active_signups exData2) [("b", "Tank"), ("c", "Melee")] =
        ([("Tank", ["Bob"])], [("Healer", ["Alice"]), ("Melee", ["Carol"])])
    ∧ get_class_map exData1 = some [("a", "Healer"), ("b", "Tank")]
    ∧ get_class_map exData2 = some [("b", "Tank"), ("c", "Melee")] := by
  refine ⟨?_, ?_, fun d1 d2 k h => dictGet_dictMerge d1 d2 k h, by decide, by decide, by decide⟩
  · intro s1 cm1 s2 cm2 c n
    show n ∈ groupGet (group_by_class (interIds (dictKeys s1) (dictKeys s2)) s1 cm1) c ↔ _
    rw [groupGet_group_by_class, List.mem_filterMap]
    constructor
    · rintro ⟨uid, hm, hp⟩
      obtain ⟨h1, h2⟩ := (mem_interIds _ _ _).mp hm
      obtain ⟨hn, hc, hne1, hne2⟩ := (diffPick_eq_some_iff _ _ _ _ _).mp hp
      exact ⟨uid, h1, h2, hn, hc, hne1, hne2⟩
    · rintro ⟨uid, h1, h2, hn, hc, hne1, hne2⟩
      exact ⟨uid, (mem_interIds _ _ _).mpr ⟨h1, h2⟩,
        (diffPick_eq_some_iff _ _ _ _ _).mpr ⟨hn, hc, hne1, hne2⟩⟩
  · intro s1 cm1 s2 cm2 c n
    show n ∈ groupGet (group_by_class (symmDiffIds (dictKeys s1) (dictKeys s2))
      (dictMerge s1 s2) (dictMerge cm1 cm2)) c ↔ _
    rw [groupGet_group_by_class, List.mem_filterMap]
    constructor
    · rintro ⟨uid, hm, hp⟩
      obtain ⟨hn, hc, hne1, hne2⟩ := (diffPick_eq_some_iff _ _ _ _ _).mp hp
      exact ⟨uid, (mem_symmDiffIds _ _ _).mp hm, hn, hc, hne1, hne2⟩
    · rintro ⟨uid, hx, hn, hc, hne1, hne2⟩
      exact ⟨uid, (mem_symmDiffIds _ _ _).mpr hx,
        (diffPick_eq_some_iff _ _ _ _ _).mpr ⟨hn, hc, hne1, hne2⟩⟩

/-- Witness for C1: Bob is in the BOTH output under Tank, Alice in the
ONLY-ONE output under Healer, on the spec's example. -/
theorem compare_grouping_spec_witness :
    "Bob" ∈ groupGet (compareGrouped (parse_active_signups exData1)
        [("a", "Healer"), ("b", "Tank")] (parse_active_signups exData2)
        [("b", "Tank"), ("c", "Melee")]).1 "Tank" ∧
    "Alice" ∈ groupGet (compareGrouped (parse_active_signups exData1)
        [("a", "Healer"), ("b", "Tank")] (parse_active_signups exData2)
        [("b", "Tank"), ("c", "Melee")]).2 "Healer" :=
  ⟨(compare_grouping_spec.1 _ _ _ _ "Tank" "Bob").mpr
      ⟨"b", by decide, by decide, by decide, by decide, by decide, by decide⟩,
   (compare_grouping_spec.2.1 _ _ _ _ "Healer" "Alice").mpr
      ⟨"a", Or.inl ⟨by decide, by decide⟩, by decide, by decide, by decide, by decide⟩⟩

/-- C5 counterexample: when both fetches fail, the compare command
sends exactly one error message, but that message is the fixed generic
text and does not contain either offending identifier — contradicting
the claim that the message names the offending identifier in every
command. -/
theorem compare_fetch_error_counterexample :
    compareRun (fun _ => none) "1234567890" "9876543210" =
      Except.ok [Message.text "❌ Could not fetch one or both event details."] ∧
    strContains "❌ Could not fetch one or both event details." "1234567890" = false ∧
    strContains "❌ Could not fetch one or both event details." "9876543210" = false := by
  refine ⟨rfl, by decide, by decide⟩

/-- C5 (amended): on a failed fetch each command sends exactly one
user-visible message and aborts with no roster output; the `signups`
message names the offending identifier, while the `compare` message is
the fixed generic text that names neither identifier. -/
theorem fetch_error_spec :
    (∀ (fetch : String → Option EventData) (arg : String),
       fetch (extract_event_id arg) = none →
       signupsRun fetch arg =
           Except.ok [Message.text (fetchErrMsg (extract_event_id arg))] ∧
         strContains (fetchErrMsg (extract_event_id arg)) (extract_event_id arg) = true)
    ∧ (∀ (fetch : String → Option EventData) (arg1 arg2 : String),
         (fetch (extract_event_id arg1) = none ∨ fetch (extract_event_id arg2) = none) →
         compareRun fetch arg1 arg2 =
           Except.ok [Message.text "❌ Could not fetch one or both event details."]) := by
  constructor
  · intro fetch arg h
    constructor
    · simp only [signupsRun, h]
    · have he : fetchErrMsg (extract_event_id arg) =
          "❌ Could not fetch event details for ID `" ++ (extract_event_id arg ++ "`.") := by
        rw [fetchErrMsg, String.append_assoc]
      rw [he]
      exact strContains_append _ _ _
  · intro fetch arg1 arg2 h
    rcases h with h | h
    · cases hf2 : fetch (extract_event_id arg2) with
      | none => simp only [compareRun, h, hf2]
      | some d2 => simp only [compareRun, h, hf2]
    · cases hf1 : fetch (extract_event_id arg1) with
      | none => simp only [compareRun, h, hf1]
      | some d1 => simp only [compareRun, h, hf1]

/-- Witness for C5: both amended statements applied to the constantly
failing fetch oracle. -/
theorem fetch_error_spec_witness :
    (signupsRun (fun _ => none) "1234567890" =
        Except.ok [Message.text (fetchErrMsg "1234567890")] ∧
      strContains (fetchErrMsg "1234567890") "1234567890" = true) ∧
    compareRun (fun _ => none) "5555555555" "9876543210" =
      Except.ok [Message.text "❌ Could not fetch one or both event details."] :=
  ⟨fetch_error_spec.1 (fun _ => none) "1234567890" rfl,
   fetch_error_spec.2 (fun _ => none) "5555555555" "9876543210" (Or.inl rfl)⟩

lemma gbcStep_unresolved (s cm : Dict) (g : Grouped) (uid : String)
    (h : dictGet s uid = none ∨ dictGet cm uid = none) :
    gbcStep s cm g uid = g := by
  unfold gbcStep
  rcases h with h | h
  · rw [h]
  · rw [h]
    cases dictGet s uid <;> rfl

lemma gbcAux_filter_unresolved (s cm : Dict) (uid : String)
    (h : dictGet s uid = none ∨ dictGet cm uid = none) :
    ∀ (ids : List String) (g : Grouped),
      gbcAux s cm ids g = gbcAux s cm (ids.filter (fun x => x != uid)) g := by
  intro ids
  induction ids with
  | nil => intro g; rfl
  | cons a t ih =>
      intro g
      rw [List.filter_cons]
      by_cases ha : a = uid
      · subst ha
        rw [if_neg (by simp)]
        show gbcAux s cm t (gbcStep s cm g a) = _
        rw [gbcStep_unresolved s cm g a h]
        exact ih g
      · rw [if_pos (by simp [bne_iff_ne]; exact ha)]
        show gbcAux s cm t (gbcStep s cm g a) = gbcAux s cm (t.filter (fun x => x != uid)) _
        exact ih _

/-- C6: when a userId of the diff path has no resolvable name or no
resolvable class in the supplied maps, the output is the same as if the
id had been removed from the id set (the id is silently dropped); an
"Unknown" (or any) bucket in the diff output can only come from an
actual class-map entry with that value; and, by contrast, the
single-roster path files a user with no class-map entry under the
literal "Unknown" bucket. -/
theorem diff_drop_spec :
    (∀ (ids : List String) (s cm : Dict) (uid : String),
       (dictGet s uid = none ∨ dictGet cm uid = none) →
       group_by_class ids s cm = group_by_class (ids.filter (fun x => x != uid)) s cm)
    ∧ (∀ (ids : List String) (s cm : Dict) (c : String),
         groupGet (group_by_class ids s cm) c ≠ [] →
         ∃ uid, uid ∈ ids ∧ dictGet cm uid = some c)
    ∧ (∀ (filtered cm : Dict) (uid n : String),
         (uid, n) ∈ filtered → dictGet cm uid = none →
         n ∈ groupGet (signupsGrouped filtered cm) "Unknown") := by
  refine ⟨?_, ?_, ?_⟩
  · intro ids s cm uid h
    unfold group_by_class
    exact gbcAux_filter_unresolved s cm uid h ids []
  · intro ids s cm c h
    rw [groupGet_group_by_class] at h
    obtain ⟨n, hn⟩ := List.exists_mem_of_ne_nil _ h
    obtain ⟨uid, hm, hp⟩ := List.mem_filterMap.mp hn
    obtain ⟨-, hc, -, -⟩ := (diffPick_eq_some_iff _ _ _ _ _).mp hp
    exact ⟨uid, hm, hc⟩
  · intro filtered cm uid n hmem hnone
    rw [groupGet_signupsGrouped]
    rw [List.mem_map]
    refine ⟨(uid, n), ?_, rfl⟩
    rw [List.mem_filter]
    exact ⟨hmem, by simp [singleCat, hnone]⟩

/-- Witness for C6: an id with an empty class map is dropped from the
diff output, while the single-roster path renders it under "Unknown". -/
theorem diff_drop_spec_witness :
    group_by_class ["u1"] [("u1", "Alice")] [] =
      group_by_class ((["u1"] : List String).filter (fun x => x != "u1"))
        [("u1", "Alice")] [] ∧
    "Alice" ∈ groupGet (signupsGrouped [("u1", "Alice")] []) "Unknown" :=
  ⟨diff_drop_spec.1 ["u1"] [("u1", "Alice")] [] "u1" (Or.inr rfl),
   diff_drop_spec.2.2 [("u1", "Alice")] [] "u1" "Alice" (by decide) rfl⟩

/-- C7: in the `signups` path, when userIds are unique within the event
and every included entry carries a `className`, the class-map build
succeeds, its key set equals the roster's key set, every roster userId
resolves in the class map (so the "Unknown" default of
`class_map.get(uid, "Unknown")` never fires), and every included entry
is grouped — under its own `className` — in the Grouped Roster. -/
theorem signups_own_class_spec :
    ∀ (data : EventData),
      (data.signUps.filterMap (fun e => e.userId)).Nodup →
      (∀ e ∈ data.signUps, activeFilter e = true → e.className ≠ none) →
      ∃ cm, get_class_map data = some cm ∧
        dictKeys cm = dictKeys (parse_active_signups data) ∧
        (∀ uid, uid ∈ dictKeys (parse_active_signups data) →
           ∃ c, dictGet cm uid = some c ∧ singleCat cm uid = c) ∧
        (∀ e ∈ data.signUps, activeFilter e = true →
           dictGet cm (e.userId.getD "") = e.className ∧
           (e.name.getD "") ∈
             groupGet (signupsGrouped (parse_active_signups data) cm)
               (e.className.getD "")) := by
  intro data hnd hcls
  refine ⟨cmList data.signUps [], cmAux_eq_some data.signUps [] hcls, ?_, ?_, ?_⟩
  · exact (dictKeys_parseAux_eq_cmList data.signUps [] [] rfl).symm
  · intro uid hm
    simp only [parse_active_signups] at hm
    rw [dictKeys_parseAux_eq_cmList data.signUps [] [] rfl] at hm
    obtain ⟨c, hc⟩ := Option.isSome_iff_exists.mp
      ((dictGet_isSome_iff_mem_keys _ _).mpr hm)
    exact ⟨c, hc, by simp [singleCat, hc]⟩
  · intro e he hf
    obtain ⟨l1, l2, hl⟩ := List.append_of_mem he
    obtain ⟨u, hu, -, hgu⟩ := userId_of_active hf
    have hsplit := nodup_split_userId l1 l2 e u hu (by rw [← hl]; exact hnd)
    have hcm : dictGet (cmList data.signUps []) u = some (e.className.getD "") := by
      rw [hl]
      exact dictGet_cmList_of_unique l1 l2 e u [] hf hu hsplit.2
    constructor
    · rw [hgu, hcm]
      cases hcn : e.className with
      | none => exact absurd hcn (hcls e he hf)
      | some cn => rfl
    · obtain ⟨n, hn, -, hgn⟩ := name_of_active hf
      have hpg : dictGet (parseAux data.signUps []) u = e.name := by
        rw [hl]
        exact dictGet_parseAux_of_unique l1 l2 e u [] hf hu hsplit.2
      have hpm : (u, n) ∈ parseAux data.signUps [] :=
        dictGet_eq_some_mem _ _ _ (by rw [hpg, hn])
      rw [hgn]
      unfold parse_active_signups
      rw [groupGet_signupsGrouped]
      rw [List.mem_map]
      refine ⟨(u, n), ?_, rfl⟩
      rw [List.mem_filter]
      exact ⟨hpm, by simp [singleCat, hcm]⟩

/-- Witness for C7: the statement applied to the first example event. -/
theorem signups_own_class_spec_witness :
    ∃ cm, get_class_map exData1 = some cm ∧
      dictKeys cm = dictKeys (parse_active_signups exData1) ∧
      (∀ uid, uid ∈ dictKeys (parse_active_signups exData1) →
         ∃ c, dictGet cm uid = some c ∧ singleCat cm uid = c) ∧
      (∀ e ∈ exData1.signUps, activeFilter e = true →
         dictGet cm (e.userId.getD "") = e.className ∧
         (e.name.getD "") ∈
           groupGet (signupsGrouped (parse_active_signups exData1) cm)
             (e.className.getD "")) :=
  signups_own_class_spec exData1 (by decide) (by decide)

/-- C8: in both grouping paths each userId contributes its display name
under exactly one category: the single-roster output under category `c`
is exactly the roster entries assigned category `c` by the class map
(with the "Unknown" default), so the per-category contributor sets are
disjoint for distinct categories; the diff output under `c` is exactly
the ids picked for `c`, and the pick function assigns at most one
category per id. -/
theorem grouped_unique_category_spec :
    (∀ (filtered cm : Dict) (c : String),
       groupGet (signupsGrouped filtered cm) c =
         (filtered.filter (fun p => singleCat cm p.1 == c)).map (fun p => p.2))
    ∧ (∀ (filtered cm : Dict) (c1 c2 uid : String), c1 ≠ c2 →
         uid ∈ (filtered.filter (fun p => singleCat cm p.1 == c1)).map (fun p => p.1) →
         uid ∉ (filtered.filter (fun p => singleCat cm p.1 == c2)).map (fun p => p.1))
    ∧ (∀ (ids : List String) (s cm : Dict) (c : String),
         groupGet (group_by_class ids s cm) c = ids.filterMap (diffPick s cm c))
    ∧ (∀ (s cm : Dict) (uid c1 c2 n1 n2 : String),
         diffPick s cm c1 uid = some n1 → diffPick s cm c2 uid = some n2 → c1 = c2) := by
  refine ⟨groupGet_signupsGrouped, ?_, groupGet_group_by_class, ?_⟩
  · intro filtered cm c1 c2 uid hne h1 h2
    obtain ⟨p, hp, hp1⟩ := List.mem_map.mp h1
    obtain ⟨q, hq, hq1⟩ := List.mem_map.mp h2
    have e1 : singleCat cm p.1 = c1 := by
      have := (List.mem_filter.mp hp).2
      simpa using this
    have e2 : singleCat cm q.1 = c2 := by
      have := (List.mem_filter.mp hq).2
      simpa using this
    rw [hp1] at e1
    rw [hq1] at e2
    exact hne (e1.symm.trans e2)
  · intro s cm uid c1 c2 n1 n2 h1 h2
    obtain ⟨-, hc1, -, -⟩ := (diffPick_eq_some_iff _ _ _ _ _).mp h1
    obtain ⟨-, hc2, -, -⟩ := (diffPick_eq_some_iff _ _ _ _ _).mp h2
    rw [hc1] at hc2
    exact Option.some_inj.mp hc2

/-- Witness for C8: on a one-entry roster the Healer bucket is exactly
[Alice], and the contributor `a` of the Healer bucket is absent from the
Tank bucket's contributors. -/
theorem grouped_unique_category_spec_witness :
    groupGet (signupsGrouped [("a", "Alice")] [("a", "Healer")]) "Healer" =
      (([("a", "Alice")] : Dict).filter
        (fun p => singleCat [("a", "Healer")] p.1 == "Healer")).map (fun p => p.2) ∧
    "a" ∉ (([("a", "Alice")] : Dict).filter
        (fun p => singleCat [("a", "Healer")] p.1 == "Tank")).map (fun p => p.1) :=
  ⟨grouped_unique_category_spec.1 [("a", "Alice")] [("a", "Healer")] "Healer",
   grouped_unique_category_spec.2.1 [("a", "Alice")] [("a", "Healer")] "Healer" "Tank" "a"
     (by decide) (by decide)⟩

/-- C9: when the fetch succeeds but the filtered roster is empty, the
`signups` command sends exactly the "no active signups" text message —
no embed and not the fetch-error message (which always starts with the
cross-mark glyph rather than the letter N). -/
theorem empty_roster_spec :
    ∀ (fetch : String → Option EventData) (arg : String) (data : EventData),
      fetch (extract_event_id arg) = some data →
      parse_active_signups data = [] →
      signupsRun fetch arg =
          Except.ok [Message.text "No active signups found for this event."] ∧
        (∀ e : Embed,
           Message.embed e ∉
             [Message.text "No active signups found for this event."]) ∧
        (∀ ident : String,
           ("No active signups found for this event." : String) ≠ fetchErrMsg ident) := by
  intro fetch arg data hf hp
  refine ⟨?_, by simp, ?_⟩
  · simp only [signupsRun, hf, hp]
    rfl
  · intro ident h
    have hh : (fetchErrMsg ident).data.head? = some 'N' := by
      rw [← h]
      decide
    rw [fetchErrMsg, String.append_assoc, String.data_append,
      head_append_of_ne_nil _ _ (by decide)] at hh
    revert hh
    decide

/-- Witness for C9: the empty event yields exactly the no-active
message. -/
theorem empty_roster_spec_witness :
    signupsRun (fun _ => some ⟨[]⟩) "1234567890" =
      Except.ok [Message.text "No active signups found for this event."] :=
  (empty_roster_spec (fun _ => some ⟨[]⟩) "1234567890" ⟨[]⟩ rfl rfl).1

/-- C10: an entry with truthy `userId` and `name` but no `className` key
passes the inclusion filter into the roster, yet `get_class_map` hits a
missing-key failure on it, so both commands abort with a `KeyError`
instead of producing output: the classification pipeline is not total
over such payloads. -/
theorem class_map_key_error_spec :
    activeFilter badEntry = true ∧
    parse_active_signups badData = [("u1", "Alice")] ∧
    get_class_map badData = none ∧
    signupsRun (fun _ => some badData) "1234567890" =
      Except.error "KeyError: className" ∧
    compareRun (fun _ => some badData) "1234567890" "9876543210" =
      Except.error "KeyError: className" := by
  refine ⟨by decide, by decide, by decide, rfl, rfl⟩
